import Mathlib

/-!
Verification development for the gitoteko repository
(a workspace scanner that synchronizes Git repositories and runs a
pluggable per-repository action pipeline, including a Sonar scan action).

Each definition below is a shallow embedding of a function of the Python
source under src/git_workspace_tool; the source file and symbol are named
in the doc comment of every definition.  External interactions
(subprocess spawns, HTTP requests, sleeps, state-file writes) are
recorded as explicit effect values so that frame properties can be
stated; results of external calls are supplied by explicit world/oracle
records.
-/

namespace Gitoteko

/-! ## Small Python string primitives -/

/-- Python truthiness of an optional string: None and the empty string are falsy. -/
def strTruthy : Option String → Bool
  | none => false
  | some s => s ≠ ""

/-- Python s.rstrip with a single slash argument: drop all trailing slash characters. -/
def rstripSlash (s : String) : String :=
  String.mk ((s.data.reverse.dropWhile (fun c => c = '/')).reverse)

/-- Python str.strip() restricted to the ASCII whitespace occurring in this
program: drop leading and trailing whitespace characters. -/
def pyStrip (s : String) : String :=
  String.mk (((s.data.dropWhile Char.isWhitespace).reverse.dropWhile Char.isWhitespace).reverse)

/-- ASCII lowercase of a string. -/
def asciiLower (s : String) : String :=
  String.mk (s.data.map Char.toLower)

/-- The truthy-string test of RunSonarScannerAction._is_truthy
(rules/sonar_scan.py lines 487-488): value.strip().lower() in the four-word set. -/
def is_truthy (value : String) : Bool :=
  let v := asciiLower (pyStrip value)
  v = "1" || v = "true" || v = "yes" || v = "on"

/-! ## Metadata dictionaries

Action results carry a metadata dictionary (Python dict with string keys).
It is modeled as an association list in insertion/update order; lookup
returns the last binding, matching dict.update overriding semantics. -/

/-- A metadata value as stored in the Python metadata dictionaries of this
program: a string, a boolean, an integer, None, or a list of strings. -/
inductive MetaVal where
  | s (v : String)
  | b (v : Bool)
  | i (v : Int)
  | null
  | strs (v : List String)
deriving DecidableEq

/-- A Python dict with string keys, in binding order; later bindings override. -/
abbrev Dict := List (String × MetaVal)

/-- Dictionary lookup: the last binding for a key wins (dict.update overrides). -/
def dget (d : Dict) (k : String) : Option MetaVal :=
  (d.reverse.find? (fun p => p.1 == k)).map (fun p => p.2)

/-- Lift an optional string into a metadata value (None becomes null). -/
def optStr : Option String → MetaVal
  | none => MetaVal.null
  | some v => MetaVal.s v

/-- The uniform shape of ActionResult (domain/entities.py lines 51-67). -/
structure ActionResultModel where
  action_name : String
  success : Bool
  message : String
  metadata : Dict
deriving DecidableEq

/-! ## Project-key sanitization (claim C5)

Source: GenerateSonarPropertiesAction._sanitize_key
(rules/sonar_properties.py lines 91-99) and the character-identical
RunSonarScannerAction._project_key (rules/sonar_scan.py lines 652-660). -/

/-- Python str.isalnum restricted to the Latin-1 block (code points up to 0xFF):
ASCII alphanumerics plus the Latin-1 letters (0xAA, 0xB5, 0xBA, 0xC0-0xFF except
the multiplication and division signs 0xD7/0xF7) and the Latin-1 numeric
characters (superscripts 0xB2, 0xB3, 0xB9 and fractions 0xBC-0xBE).
Code points above 0xFF are mapped to false; every theorem in this file applies
this predicate only to characters in the Latin-1 block. -/
def pyIsAlnum (c : Char) : Bool :=
  c.isAlphanum ||
  (let n := c.toNat
   n = 0xAA || n = 0xB5 || n = 0xBA ||
   n = 0xB2 || n = 0xB3 || n = 0xB9 ||
   n = 0xBC || n = 0xBD || n = 0xBE ||
   (decide (0xC0 ≤ n) && decide (n ≤ 0xFF) && n ≠ 0xD7 && n ≠ 0xF7))

/-- The sanitization loop shared by _sanitize_key (sonar_properties.py) and
_project_key (sonar_scan.py): keep a character when char.isalnum() or it is
one of underscore, hyphen, dot, colon; otherwise replace it with an underscore. -/
def sanitize_key (value : String) : String :=
  String.mk (value.data.map (fun c =>
    if pyIsAlnum c || c = '_' || c = '-' || c = '.' || c = ':' then c else '_'))

/-- RunSonarScannerAction._project_key (rules/sonar_scan.py lines 652-660):
sanitize the string workspace ++ underscore ++ slug. -/
def project_key (workspace slug : String) : String :=
  sanitize_key (workspace ++ "_" ++ slug)

/-- The character class of the specification for project keys, written
[A-Za-z0-9_\-.:]; Char.isAlphanum is exactly ASCII alphanumeric. -/
def isAsciiKeyChar (c : Char) : Bool :=
  c.isAlphanum || c = '_' || c = '-' || c = '.' || c = ':'

/-! ## SonarScanner command construction (claim C10)

Source: ShellSonarScannerRunner.run (rules/sonar_runtime.py lines 42-76). -/

/-- The argv list built by ShellSonarScannerRunner.run before spawning the
scanner process: executable, host-url and token properties, and a branch-name
property exactly when branch_name is truthy (neither None nor empty) and is
not the string main. -/
def shellSonarScannerCommand (exe sonarUrl token : String)
    (branchName : Option String) : List String :=
  [exe, "-Dsonar.host.url=" ++ sonarUrl, "-Dsonar.token=" ++ token] ++
  (match branchName with
   | some b => if b ≠ "" && b ≠ "main" then ["-Dsonar.branch.name=" ++ b] else []
   | none => [])

/-! ## FileSystem port and adapter method inventories (claim C2) -/

/-- The abstract methods declared by FileSystemPort (domain/ports.py lines 43-59):
ensure_directory, path_exists and list_files_recursive, each marked
with the abstractmethod decorator. -/
def FileSystemPort.abstractMethods : List String :=
  ["ensure_directory", "path_exists", "list_files_recursive"]

/-- The methods defined by LocalFileSystemAdapter
(adapters/filesystem/local_filesystem.py lines 8-13): ensure_directory and
list_files_recursive only. -/
def LocalFileSystemAdapter.definedMethods : List String :=
  ["ensure_directory", "list_files_recursive"]

/-- Python abstract-base-class semantics: instantiating a subclass of an ABC
succeeds exactly when every abstract method of the base is overridden;
otherwise the constructor raises TypeError. -/
def abcInstantiable (abstract defined : List String) : Bool :=
  abstract.all (fun m => defined.contains m)

/-! ## Language report CSV action (claims C8 and C9)

Source: WriteLanguageReportCsvAction (rules/language_report_csv.py).
The CSV file is modeled by its parsed row list (the fixed five columns of
_FIELDNAMES); a missing file is none.  The csv module round-trips row values,
so a run that performs no write leaves the file bytes untouched, which the
model expresses by returning the input file value unchanged. -/

/-- One CSV row with the fixed _FIELDNAMES columns
(rules/language_report_csv.py line 19). -/
structure CsvRow where
  workspace : String
  repo_name : String
  repo_slug : String
  local_path : String
  extensions : String
deriving DecidableEq

/-- Constructor configuration of WriteLanguageReportCsvAction
(rules/language_report_csv.py lines 21-37). -/
structure CsvConfig where
  report_csv_path : String
  regenerate : Bool
  extensions_delimiter : String

/-- The RepoContext fields read by WriteLanguageReportCsvAction.execute;
detected_extensions lists the members of the Python set (order irrelevant:
serialization sorts and the list is deduplicated like a set). -/
structure CsvInput where
  workspace_id : String
  repo_name : String
  repo_slug : String
  local_path : String
  detected_extensions : List String

/-- Insert a string into a sorted list of strings (code-point order, as Python
string comparison). -/
def insertSorted (s : String) : List String → List String
  | [] => [s]
  | t :: ts => if s ≤ t then s :: t :: ts else t :: insertSorted s ts

/-- Sort strings ascending by code-point order (Python sorted). -/
def sortStrings (l : List String) : List String :=
  l.foldr insertSorted []

/-- WriteLanguageReportCsvAction._serialize_extensions
(rules/language_report_csv.py lines 86-87): join the sorted members of the
extension set with the configured delimiter. -/
def serialize_extensions (delim : String) (exts : List String) : String :=
  String.intercalate delim (sortStrings exts.eraseDups)

/-- The row-key test of _find_row_index: same workspace and same repo_slug. -/
def rowMatches (r : CsvRow) (ws slug : String) : Bool :=
  r.workspace == ws && r.repo_slug == slug

/-- The enumerate loop of WriteLanguageReportCsvAction._find_row_index
(rules/language_report_csv.py lines 107-113), carrying the running index. -/
def find_row_index_aux (ws slug : String) : List CsvRow → Nat → Option Nat
  | [], _ => none
  | r :: rs, i => if rowMatches r ws slug then some i else find_row_index_aux ws slug rs (i + 1)

/-- WriteLanguageReportCsvAction._find_row_index: index of the first row whose
workspace and repo_slug match, if any. -/
def find_row_index (rows : List CsvRow) (ws slug : String) : Option Nat :=
  find_row_index_aux ws slug rows 0

/-- WriteLanguageReportCsvAction._read_rows (rules/language_report_csv.py
lines 89-98): a missing file reads as the empty row list. -/
def readRows : Option (List CsvRow) → List CsvRow
  | none => []
  | some rows => rows

/-- The replace-or-append step of execute (rules/language_report_csv.py
lines 66-70): replace the first matching row in place, else append. -/
def upsertRows (rows : List CsvRow) (ws slug : String) (target : CsvRow) : List CsvRow :=
  match find_row_index rows ws slug with
  | some i => rows.set i target
  | none => rows ++ [target]

/-- Number of rows matching a (workspace, repo_slug) key. -/
def keyCount (rows : List CsvRow) (ws slug : String) : Nat :=
  rows.countP (fun r => rowMatches r ws slug)

/-- WriteLanguageReportCsvAction.execute (rules/language_report_csv.py
lines 39-84): read existing rows, locate the row keyed by
(workspace, repo_slug); if found and regenerate is false, return success with
row_written=false and do not rewrite the file; otherwise replace or append the
target row and rewrite the whole file.  (The unconditional parent-directory
mkdir touches only the directory, not the file, and is not modeled.) -/
def csvExecute (cfg : CsvConfig) (inp : CsvInput) (file : Option (List CsvRow)) :
    Option (List CsvRow) × ActionResultModel :=
  let target : CsvRow :=
    { workspace := inp.workspace_id
      repo_name := inp.repo_name
      repo_slug := inp.repo_slug
      local_path := inp.local_path
      extensions := serialize_extensions cfg.extensions_delimiter inp.detected_extensions }
  let rows := readRows file
  match find_row_index rows inp.workspace_id inp.repo_slug with
  | some _ =>
      if cfg.regenerate then
        (some (upsertRows rows inp.workspace_id inp.repo_slug target),
         { action_name := "WriteLanguageReportCsvAction"
           success := true
           message := "CSV row written"
           metadata := [("csv_path", MetaVal.s cfg.report_csv_path),
                        ("row_written", MetaVal.b true),
                        ("regenerate", MetaVal.b cfg.regenerate)] })
      else
        (file,
         { action_name := "WriteLanguageReportCsvAction"
           success := true
           message := "CSV row already exists, skipped"
           metadata := [("csv_path", MetaVal.s cfg.report_csv_path),
                        ("row_written", MetaVal.b false),
                        ("regenerate", MetaVal.b false)] })
  | none =>
      (some (upsertRows rows inp.workspace_id inp.repo_slug target),
       { action_name := "WriteLanguageReportCsvAction"
         success := true
         message := "CSV row written"
         metadata := [("csv_path", MetaVal.s cfg.report_csv_path),
                      ("row_written", MetaVal.b true),
                      ("regenerate", MetaVal.b cfg.regenerate)] })

/-! ## Workspace scanner use case (claims C6 and C7)

Source: GitWorkspaceScanner.execute
(application/use_cases/git_workspace_scanner.py lines 60-281).
The repository list passed to the loop model stands for the list obtained
after the provider listing and the slug/max-repos filtering of lines 85-119;
the theorems quantify over every such list.  External interactions of the
use case are recorded as ScanEffect values in call order. -/

/-- Repository metadata (domain/entities.py lines 16-28). -/
structure RepoM where
  name : String
  slug : String
  clone_url : String
deriving DecidableEq

/-- Per-repository oracle for one loop iteration: the filesystem answer for
path_exists, whether the try block of lines 171-255 raised (with the
exception message), and the pipeline results when it did not raise. -/
structure RepoOutcome where
  alreadyExists : Bool
  syncError : Option String
  actionResults : List ActionResultModel

/-- A repository paired with its iteration oracle. -/
structure ScanRepo where
  repo : RepoM
  outcome : RepoOutcome

/-- RepositoryExecutionSummary (git_workspace_scanner.py lines 17-28). -/
structure RepositoryExecutionSummary where
  repo_slug : String
  local_path : String
  sync_operation : String
  dry_run : Bool
  planned_actions : List String
  action_results : List ActionResultModel
  success : Bool
  error : Option String
deriving DecidableEq

/-- ScanExecutionSummary (git_workspace_scanner.py lines 31-40). -/
structure ScanExecutionSummary where
  workspace : String
  base_dir : String
  dry_run : Bool
  repositories : List RepositoryExecutionSummary
  failed_repositories : Nat
  successful_repositories : Nat
deriving DecidableEq

/-- External interactions of GitWorkspaceScanner.execute, in call order:
the provider repository listing of line 85 (an HTTPS GET in the only
implemented provider adapter, bitbucket_cloud.py), the base-directory
creation of line 125, the per-repository path-existence query of line 133
(a read), the git pull/clone of lines 172-175, and the action-pipeline
execution of line 182. -/
inductive ScanEffect where
  | providerList
  | ensureDir
  | pathExists (slug : String)
  | gitPull (slug : String)
  | gitClone (slug : String)
  | actionExec (slug : String)
deriving DecidableEq

/-- The error message built at git_workspace_scanner.py lines 187-189 when at
least one action failed. -/
def actionsFailedMessage (results : List ActionResultModel) : String :=
  "One or more actions failed: " ++
    String.intercalate ", " ((results.filter (fun r => !r.success)).map (fun r => r.action_name))

/-- The per-repository loop of GitWorkspaceScanner.execute (lines 131-255):
query path_exists, choose pull or clone, in dry-run record a planned summary
and continue; otherwise sync and run the pipeline, recording a failure
summary when the try block raises, and stop early when stop_on_error applies. -/
def scannerLoop (baseDir : String) (plannedActions : List String)
    (dryRun stopOnError : Bool) :
    List ScanRepo → List RepositoryExecutionSummary × List ScanEffect
  | [] => ([], [])
  | sr :: rest =>
    let slug := sr.repo.slug
    let localPath := baseDir ++ "/" ++ slug
    let syncOp := if sr.outcome.alreadyExists then "pull" else "clone"
    let eff0 := [ScanEffect.pathExists slug]
    if dryRun then
      let s : RepositoryExecutionSummary :=
        { repo_slug := slug, local_path := localPath, sync_operation := syncOp
          dry_run := true, planned_actions := plannedActions
          action_results := [], success := true, error := none }
      let (ss, effs) := scannerLoop baseDir plannedActions dryRun stopOnError rest
      (s :: ss, eff0 ++ effs)
    else
      let syncEff := if sr.outcome.alreadyExists then [ScanEffect.gitPull slug]
                     else [ScanEffect.gitClone slug]
      match sr.outcome.syncError with
      | some e =>
        let s : RepositoryExecutionSummary :=
          { repo_slug := slug, local_path := localPath, sync_operation := syncOp
            dry_run := false, planned_actions := plannedActions
            action_results := [], success := false, error := some e }
        if stopOnError then ([s], eff0 ++ syncEff)
        else
          let (ss, effs) := scannerLoop baseDir plannedActions dryRun stopOnError rest
          (s :: ss, eff0 ++ syncEff ++ effs)
      | none =>
        let results := sr.outcome.actionResults
        let actionFailed := results.any (fun r => !r.success)
        let s : RepositoryExecutionSummary :=
          { repo_slug := slug, local_path := localPath, sync_operation := syncOp
            dry_run := false, planned_actions := plannedActions
            action_results := results, success := !actionFailed
            error := if actionFailed then some (actionsFailedMessage results) else none }
        if actionFailed && stopOnError then ([s], eff0 ++ syncEff ++ [ScanEffect.actionExec slug])
        else
          let (ss, effs) := scannerLoop baseDir plannedActions dryRun stopOnError rest
          (s :: ss, eff0 ++ syncEff ++ [ScanEffect.actionExec slug] ++ effs)

/-- GitWorkspaceScanner.execute (git_workspace_scanner.py lines 60-281):
provider listing, base-directory creation unless dry-run, the repository
loop, then the aggregate counts (failed = summaries with success false,
successful = len - failed, lines 257-267). -/
def scannerExecute (workspace baseDir : String) (plannedActions : List String)
    (repos : List ScanRepo) (dryRun stopOnError : Bool) :
    ScanExecutionSummary × List ScanEffect :=
  let preEffs := [ScanEffect.providerList] ++ (if dryRun then [] else [ScanEffect.ensureDir])
  let (ss, effs) := scannerLoop baseDir plannedActions dryRun stopOnError repos
  let failed := ss.countP (fun s => !s.success)
  ({ workspace := workspace, base_dir := baseDir, dry_run := dryRun
     repositories := ss
     failed_repositories := failed
     successful_repositories := ss.length - failed },
   preEffs ++ effs)

/-! ## Bitbucket repository listing (supporting claim C7)

Source: BitbucketCloudGitProviderAdapter.list_repositories
(adapters/git_providers/bitbucket_cloud.py lines 33-54). -/

/-- An HTTP request issued by the provider adapter. -/
inductive HttpEffect where
  | get (url : String)
deriving DecidableEq

/-- A parsed Bitbucket listing page: the repositories successfully mapped from
its values array (the per-item mapping of _map_repository is abstracted) and
the next link when it is a non-empty string. -/
structure BbPage where
  repos : List RepoM
  next : Option String

/-- The pagination loop of list_repositories: request the current URL (one
HTTP GET per iteration, via _request_json and urlopen), accumulate the mapped
repositories, and follow the next link while present.  The server function
abstracts _request_json (whose HTTP and JSON error paths raise before any
repository is returned); fuel bounds the pagination chain, which the source
follows unboundedly. -/
def bbListRepositories (server : String → BbPage) :
    Nat → String → List RepoM × List HttpEffect
  | 0, _ => ([], [])
  | fuel + 1, url =>
    let page := server url
    match page.next with
    | some nxt =>
      let (rs, effs) := bbListRepositories server fuel nxt
      (page.repos ++ rs, HttpEffect.get url :: effs)
    | none => (page.repos, [HttpEffect.get url])

/-- The first listing URL built at bitbucket_cloud.py lines 33-34
(URL-quoting of the workspace is the identity on the slugs used here). -/
def bbListUrl (apiBase workspace : String) : String :=
  apiBase ++ "/repositories/" ++ workspace

/-! ## CLI exit codes (claim C3)

Source: main (cli/main.py lines 70-114).  load_config raising ValueError and
scanner construction/execution raising RuntimeError both reach parser.error,
which prints usage and exits the process with status 2 (argparse semantics);
a completed run prints the summary and returns 0 from main unconditionally. -/

/-- Outcome of one CLI invocation of main. -/
inductive CliOutcome where
  | usageError
  | runtimeError
  | completed (summary : ScanExecutionSummary)

/-- The process exit code produced by main (cli/main.py lines 70-114):
parser.error paths exit 2; a completed run returns 0 regardless of the
summary contents (the final statement of main is return 0). -/
def mainExitCode : CliOutcome → Nat
  | CliOutcome.usageError => 2
  | CliOutcome.runtimeError => 2
  | CliOutcome.completed _ => 0

/-! ## Sonar scan action (claims C1 and C4)

Source: RunSonarScannerAction (rules/sonar_scan.py).  The action's external
interactions are recorded as SonarEffect values in call order; the outcomes
of external calls are supplied by a SonarWorld oracle record.  URL-quoting of
identifiers embedded in URLs is the identity on the values used in the
theorems below and is omitted.  The regular-expression extraction of the
analysis URL and CE task id from the scanner output (lines 541-547) is
supplied by the oracle, since every claim conditions only on its result. -/

/-- The validated execution_mode values (rules/sonar_scan.py lines 68-70). -/
inductive ExecutionMode where
  | cloud
  | local
  | ci
deriving DecidableEq

/-- Constructor state of RunSonarScannerAction after the normalization of
lines 65-82; sonarUrl and sonarToken hold the explicit overrides after
strip/rstrip, already None when the argument was falsy. -/
structure SonarConfig where
  sonarUrl : Option String
  sonarToken : Option String
  execution_mode : ExecutionMode
  wait_mode : String
  skip_unchanged : Bool
  force_scan : Bool

/-- A parsed entry of the per-repository state file
(the scans values read at lines 721-741); absent fields are none. -/
structure StateEntry where
  revision : Option String
  status : Option String
deriving DecidableEq

/-- A parsed CE task object returned by _fetch_ce_task (lines 588-614). -/
structure CeTask where
  status : String
  analysisId : Option String
  componentKey : Option String
  errorMessage : Option String
deriving DecidableEq

/-- Outcome of one _fetch_ce_task call during polling: a RuntimeError
(URL error, invalid JSON or missing task object) or a parsed task. -/
inductive PollOutcome where
  | err (msg : String)
  | ok (task : CeTask)
deriving DecidableEq

/-- Outcome of _fetch_quality_gate_status (lines 616-650): the parsed
projectStatus object (with its optional status and endpoint_error fields),
the synthesized HTTP-404 payload, or a fatal RuntimeError. -/
inductive QgOutcome where
  | ok (statusField : Option String) (conditions : List String)
       (endpointError : Option String)
  | notFound
  | fatal (msg : String)
deriving DecidableEq

/-- The RepoContext fields the Sonar action reads. -/
structure RepoCtxM where
  workspace_id : String
  repo_slug : String

/-- External interactions of RunSonarScannerAction.execute, in call order:
git subprocess spawns (branch and revision resolution), the sonar-scanner
subprocess spawn, HTTP requests, throttle and polling sleeps, and the
state-file write of _save_state_entry. -/
inductive SonarEffect where
  | subprocessGit (command : String)
  | subprocessScanner
  | httpGet (url : String)
  | httpPost (url : String)
  | sleep
  | stateWrite
deriving DecidableEq

/-- Whether an effect is a subprocess spawn. -/
def SonarEffect.isSubprocess : SonarEffect → Bool
  | SonarEffect.subprocessGit _ => true
  | SonarEffect.subprocessScanner => true
  | _ => false

/-- Whether an effect is a network request. -/
def SonarEffect.isNetwork : SonarEffect → Bool
  | SonarEffect.httpGet _ => true
  | SonarEffect.httpPost _ => true
  | _ => false

/-- Whether an effect is a git subprocess spawn (branch/revision resolution). -/
def SonarEffect.isGitSubprocess : SonarEffect → Bool
  | SonarEffect.subprocessGit _ => true
  | _ => false

/-- Oracle record for one execute call: the environment mapping, the stdout
of each git query when it exited successfully (none for OSError or a
non-zero exit), the parsed scans table of the state file (none when the file
is missing, unreadable or not of the expected shape), whether the submission
throttle of lines 549-556 has a positive remainder to sleep, the scanner
subprocess outcome with the regex-extraction results on its output, the CE
poll outcomes with the number of poll iterations the deadline admits, and the
quality-gate / CI-trigger outcomes for the other modes. -/
structure SonarWorld where
  env : List (String × String)
  revParseAbbrevHead : Option String
  symbolicRefOriginHead : Option String
  revParseHead : Option String
  stateScans : Option (List (String × StateEntry))
  throttleSleeps : Bool
  scannerExit : Int
  scannerStdout : String
  scannerStderr : String
  scannerAnalysisUrl : Option String
  scannerCeTaskId : Option String
  cePolls : Nat → PollOutcome
  maxPolls : Nat
  qualityGate : QgOutcome
  ciOutcome : Except String Dict

/-- Environment lookup (Mapping.get). -/
def envGet (env : List (String × String)) (k : String) : Option String :=
  (env.find? (fun p => p.1 == k)).map (fun p => p.2)

/-- RunSonarScannerAction._resolve_sonar_url (lines 534-536) combined with the
falsy check of execute lines 89-94: the first truthy candidate among the
explicit override, SONARQUBE_URL and SONAR_HOST_URL, with trailing slashes
stripped; none when every candidate is falsy. -/
def resolveSonarUrl (cfg : SonarConfig) (w : SonarWorld) : Option String :=
  if strTruthy cfg.sonarUrl then cfg.sonarUrl.map rstripSlash
  else if strTruthy (envGet w.env "SONARQUBE_URL") then
    (envGet w.env "SONARQUBE_URL").map rstripSlash
  else if strTruthy (envGet w.env "SONAR_HOST_URL") then
    (envGet w.env "SONAR_HOST_URL").map rstripSlash
  else none

/-- RunSonarScannerAction._resolve_sonar_token (lines 538-539) combined with
the falsy check of execute lines 96-101. -/
def resolveSonarToken (cfg : SonarConfig) (w : SonarWorld) : Option String :=
  if strTruthy cfg.sonarToken then cfg.sonarToken
  else if strTruthy (envGet w.env "SONARQUBE_TOKEN") then envGet w.env "SONARQUBE_TOKEN"
  else if strTruthy (envGet w.env "SONAR_TOKEN") then envGet w.env "SONAR_TOKEN"
  else none

/-- The symbolic-ref fallback of _resolve_git_branch (lines 695-712): spawn
git symbolic-ref --short refs/remotes/origin/HEAD; on failure return none;
strip the output and, when it starts with origin/, return the remainder
after the first slash (none when empty). -/
def resolveBranchFallback (w : SonarWorld) (e1 : List SonarEffect) :
    Option String × List SonarEffect :=
  (match w.symbolicRefOriginHead with
   | none => none
   | some out =>
     let value := pyStrip out
     if ("origin/" : String).data.isPrefixOf value.data then
       (if value.data.drop 7 = [] then none else some (String.mk (value.data.drop 7)))
     else none,
   e1 ++ [SonarEffect.subprocessGit "git symbolic-ref --short refs/remotes/origin/HEAD"])

/-- RunSonarScannerAction._resolve_git_branch (lines 678-712): spawn
git rev-parse --abbrev-ref HEAD; when it succeeds with a non-empty branch
other than HEAD, return it; otherwise fall back to the origin/HEAD
symbolic ref. -/
def resolve_git_branch (w : SonarWorld) : Option String × List SonarEffect :=
  let e1 := [SonarEffect.subprocessGit "git rev-parse --abbrev-ref HEAD"]
  match w.revParseAbbrevHead with
  | some out =>
    let branch := pyStrip out
    if branch ≠ "" && branch ≠ "HEAD" then (some branch, e1)
    else resolveBranchFallback w e1
  | none => resolveBranchFallback w e1

/-- RunSonarScannerAction._resolve_git_revision (lines 662-676): spawn
git rev-parse HEAD; none on failure or empty output, else the stripped
revision. -/
def resolve_git_revision (w : SonarWorld) : Option String × List SonarEffect :=
  (match w.revParseHead with
   | none => none
   | some out => (if pyStrip out = "" then none else some (pyStrip out)),
   [SonarEffect.subprocessGit "git rev-parse HEAD"])

/-- Whether SONAR_ENABLE_BRANCH_ANALYSIS is truthy (execute line 105). -/
def branchAnalysisEnabled (w : SonarWorld) : Bool :=
  is_truthy ((envGet w.env "SONAR_ENABLE_BRANCH_ANALYSIS").getD "false")

/-- The scanner_branch_name of execute line 106: the resolved branch only when
branch analysis is enabled. -/
def scannerBranchName (w : SonarWorld) : Option String :=
  if branchAnalysisEnabled w then (resolve_git_branch w).1 else none

/-- RunSonarScannerAction._state_key (lines 714-716): url, project key and
branch (default when the branch is falsy) joined by vertical bars. -/
def state_key (sonarUrl pk : String) (branch : Option String) : String :=
  let branchValue :=
    match branch with
    | some b => if b = "" then "default" else b
    | none => "default"
  sonarUrl ++ "|" ++ pk ++ "|" ++ branchValue

/-- RunSonarScannerAction._load_state_entry (lines 721-741): look up the state
key in the parsed scans table; none when the file or the key is missing. -/
def load_state_entry (w : SonarWorld) (sonarUrl pk : String)
    (branch : Option String) : Option StateEntry :=
  match w.stateScans with
  | none => none
  | some scans => (scans.find? (fun p => p.1 == state_key sonarUrl pk branch)).map (fun p => p.2)

/-- The CE task endpoint url (lines 574 and 589). -/
def ceTaskUrl (sonarUrl tid : String) : String :=
  sonarUrl ++ "/api/ce/task?id=" ++ tid

/-- The terminal CE statuses of the wait loop (line 571). -/
def isTerminalStatus (s : String) : Bool :=
  s = "SUCCESS" || s = "FAILED" || s = "CANCELED"

/-- The polling loop of _wait_for_ce_task (lines 558-586), with the deadline
discretized into the number of poll iterations it admits (fuel): each
iteration issues one HTTP GET; a RuntimeError is remembered in the
latest-error slot and the loop sleeps and continues; a terminal status
returns its payload immediately; a non-terminal status sleeps and continues;
exhausted fuel returns the TIMEOUT payload. -/
def waitForCeTaskAux (sonarUrl tid : String) (polls : Nat → PollOutcome) :
    Nat → Nat → Option String → Dict × List SonarEffect
  | _, 0, lastErr =>
    ([("ce_task_status", MetaVal.s "TIMEOUT"),
      ("ce_task_url", MetaVal.s (ceTaskUrl sonarUrl tid)),
      ("ce_poll_error", optStr lastErr)], [])
  | i, fuel + 1, lastErr =>
    match polls i with
    | PollOutcome.err m =>
      let rest := waitForCeTaskAux sonarUrl tid polls (i + 1) fuel (some m)
      (rest.1, SonarEffect.httpGet (ceTaskUrl sonarUrl tid) :: SonarEffect.sleep :: rest.2)
    | PollOutcome.ok task =>
      if isTerminalStatus task.status then
        ([("ce_task_status", MetaVal.s task.status),
          ("ce_task_url", MetaVal.s (ceTaskUrl sonarUrl tid)),
          ("ce_analysis_id", optStr task.analysisId),
          ("ce_component_key", optStr task.componentKey),
          ("ce_error_message", optStr task.errorMessage)],
         [SonarEffect.httpGet (ceTaskUrl sonarUrl tid)])
      else
        let rest := waitForCeTaskAux sonarUrl tid polls (i + 1) fuel lastErr
        (rest.1, SonarEffect.httpGet (ceTaskUrl sonarUrl tid) :: SonarEffect.sleep :: rest.2)

/-- RunSonarScannerAction._wait_for_ce_task on a world. -/
def wait_for_ce_task (sonarUrl tid : String) (w : SonarWorld) : Dict × List SonarEffect :=
  waitForCeTaskAux sonarUrl tid w.cePolls 0 w.maxPolls none

/-- Specification-side scan: the status of the first poll outcome that is a
parsed task with a terminal status, among the iterations the deadline
admits. -/
def firstTerminalStatus (polls : Nat → PollOutcome) : Nat → Nat → Option String
  | _, 0 => none
  | i, fuel + 1 =>
    match polls i with
    | PollOutcome.ok t =>
      if isTerminalStatus t.status then some t.status
      else firstTerminalStatus polls (i + 1) fuel
    | PollOutcome.err _ => firstTerminalStatus polls (i + 1) fuel

/-- The ce_task_status string the wait loop reports for a world: the first
terminal status reached before the deadline, else TIMEOUT. -/
def ceWaitStatus (w : SonarWorld) : String :=
  (firstTerminalStatus w.cePolls 0 w.maxPolls).getD "TIMEOUT"

/-- The quality gate endpoint url (lines 522 and 617). -/
def qualityGateUrl (sonarUrl pk : String) : String :=
  sonarUrl ++ "/api/qualitygates/project_status?projectKey=" ++ pk

/-- The dashboard url (lines 310 and 525). -/
def dashboardUrl (sonarUrl pk : String) : String :=
  sonarUrl ++ "/dashboard?id=" ++ pk

/-- RunSonarScannerAction._execute_cloud_status_check (lines 490-532): fetch
the quality gate status (one HTTP GET; other-than-404 errors raise), map
OK/NONE to success, ERROR to failure, and the 404-synthesized UNKNOWN payload
to success with final status SKIPPED_STATUS_CHECK. -/
def execute_cloud_status_check (w : SonarWorld) (sonarUrl pk repoSlug waitMode : String) :
    Except String (Bool × String × String × Dict) × List SonarEffect :=
  let effs := [SonarEffect.httpGet (qualityGateUrl sonarUrl pk)]
  match w.qualityGate with
  | QgOutcome.fatal m => (Except.error m, effs)
  | QgOutcome.notFound =>
    (Except.ok (true, "Sonar quality gate endpoint unavailable; status check skipped",
                "SKIPPED_STATUS_CHECK",
                [("repo_slug", MetaVal.s repoSlug),
                 ("execution_mode", MetaVal.s "cloud"),
                 ("wait_mode", MetaVal.s waitMode),
                 ("project_key", MetaVal.s pk),
                 ("quality_gate_status", MetaVal.s "UNKNOWN"),
                 ("quality_gate_url", MetaVal.s (qualityGateUrl sonarUrl pk)),
                 ("quality_gate_conditions", MetaVal.strs []),
                 ("quality_gate_endpoint_error", MetaVal.s "HTTP 404"),
                 ("analysis_url", MetaVal.s (dashboardUrl sonarUrl pk))]), effs)
  | QgOutcome.ok statusField conditions endpointError =>
    let status :=
      match statusField with
      | some s => if s = "" then "UNKNOWN" else s
      | none => "UNKNOWN"
    let endpointErrTruthy := strTruthy endpointError
    let success0 := status = "OK" || status = "NONE"
    let success := if status = "UNKNOWN" && endpointErrTruthy then true else success0
    let message :=
      if status = "ERROR" then "Sonar cloud quality gate failed"
      else if status = "UNKNOWN" && endpointErrTruthy then
        "Sonar quality gate endpoint unavailable; status check skipped"
      else "Sonar cloud status fetched"
    let finalStatus :=
      if status = "UNKNOWN" && endpointErrTruthy then "SKIPPED_STATUS_CHECK"
      else if success then "SUCCESS" else status
    (Except.ok (success, message, finalStatus,
                [("repo_slug", MetaVal.s repoSlug),
                 ("execution_mode", MetaVal.s "cloud"),
                 ("wait_mode", MetaVal.s waitMode),
                 ("project_key", MetaVal.s pk),
                 ("quality_gate_status", MetaVal.s status),
                 ("quality_gate_url", MetaVal.s (qualityGateUrl sonarUrl pk)),
                 ("quality_gate_conditions", MetaVal.strs conditions),
                 ("quality_gate_endpoint_error", optStr endpointError),
                 ("analysis_url", MetaVal.s (dashboardUrl sonarUrl pk))]), effs)

/-- RunSonarScannerAction._execute_ci_trigger (lines 238-312), abstracted: it
always performs network requests against the Bitbucket API (recorded as the
pipeline-trigger POST; verification GETs and a fallback re-trigger may add
more) and either raises a RuntimeError or returns success with final status
SUBMITTED and the pipeline metadata supplied by the oracle.  No claim
depends on the internals of this path. -/
def execute_ci_trigger (w : SonarWorld) :
    Except String (Bool × String × String × Dict) × List SonarEffect :=
  match w.ciOutcome with
  | Except.error m => (Except.error m, [SonarEffect.httpPost "bitbucket-pipelines"])
  | Except.ok md =>
    (Except.ok (true, "Sonar CI pipeline triggered", "SUBMITTED", md),
     [SonarEffect.httpPost "bitbucket-pipelines"])

/-- The local branch of execute (lines 146-202): spawn the scanner, extract
the analysis URL and CE task id (oracle), then in sync wait mode either fail
for a missing task id or wait for the CE task and map its terminal status;
in async mode a successful exit is SUBMITTED. -/
def executeLocalScan (cfg : SonarConfig) (rc : RepoCtxM) (w : SonarWorld)
    (sonarUrl : String) (branchName : Option String) (bae : Bool) :
    Except String (Bool × String × String × Dict) × List SonarEffect :=
  let scanEffs := [SonarEffect.subprocessScanner]
  let success0 := w.scannerExit == 0
  let md0 : Dict :=
    [("repo_slug", MetaVal.s rc.repo_slug),
     ("execution_mode", MetaVal.s "local"),
     ("exit_code", MetaVal.i w.scannerExit),
     ("analysis_url", optStr w.scannerAnalysisUrl),
     ("ce_task_id", optStr w.scannerCeTaskId),
     ("branch_name", optStr branchName),
     ("branch_analysis_enabled", MetaVal.b bae),
     ("wait_mode", MetaVal.s cfg.wait_mode),
     ("stdout", MetaVal.s w.scannerStdout),
     ("stderr", MetaVal.s w.scannerStderr)]
  if success0 && cfg.wait_mode == "sync" then
    match w.scannerCeTaskId with
    | none =>
      (Except.ok (false, "Sonar scan submitted but CE task id was not found", "FAILED", md0),
       scanEffs)
    | some tid =>
      let waitRes := wait_for_ce_task sonarUrl tid w
      let md1 := md0 ++ waitRes.1
      let ceStatus :=
        match dget waitRes.1 "ce_task_status" with
        | some (MetaVal.s v) => v
        | _ => ""
      if ceStatus = "SUCCESS" then
        (Except.ok (true, "Sonar scan completed and processed", "SUCCESS", md1),
         scanEffs ++ waitRes.2)
      else if ceStatus = "TIMEOUT" then
        (Except.ok (false, "Sonar scan submitted but CE processing wait timed out", "TIMEOUT", md1),
         scanEffs ++ waitRes.2)
      else
        let st := if ceStatus = "" then "UNKNOWN" else ceStatus
        (Except.ok (false, "Sonar scan submitted but CE processing ended with status " ++ st, st, md1),
         scanEffs ++ waitRes.2)
  else
    if success0 then (Except.ok (true, "Sonar scan completed", "SUBMITTED", md0), scanEffs)
    else (Except.ok (false, "Sonar scan failed", "FAILED", md0), scanEffs)

/-- The idempotence-gate condition of execute lines 108-115: skip_unchanged
and not force_scan, the revision resolved, and the state entry under the
(sonar_url, project_key, branch-or-default) key records the same revision
with status SUCCESS. -/
def skipGateTaken (cfg : SonarConfig) (rc : RepoCtxM) (w : SonarWorld)
    (sonarUrl : String) : Bool :=
  cfg.skip_unchanged && !cfg.force_scan && (resolve_git_revision w).1.isSome &&
  (match load_state_entry w sonarUrl (project_key rc.workspace_id rc.repo_slug)
         (scannerBranchName w) with
   | some e => e.revision == (resolve_git_revision w).1 && e.status == some "SUCCESS"
   | none => false)

/-- The mode dispatch of execute lines 132-155: cloud queries the quality
gate, ci triggers a pipeline, local runs the scanner (and waits). -/
def sonarDispatch (cfg : SonarConfig) (rc : RepoCtxM) (w : SonarWorld) (sonarUrl : String) :
    Except String (Bool × String × String × Dict) × List SonarEffect :=
  match cfg.execution_mode with
  | ExecutionMode.cloud =>
    execute_cloud_status_check w sonarUrl (project_key rc.workspace_id rc.repo_slug)
      rc.repo_slug cfg.wait_mode
  | ExecutionMode.ci => execute_ci_trigger w
  | ExecutionMode.local =>
    executeLocalScan cfg rc w sonarUrl (resolve_git_branch w).1 (branchAnalysisEnabled w)

/-- RunSonarScannerAction.execute (lines 84-236): resolve URL and token
(failing result when missing), resolve branch and revision via git, take the
idempotence gate when the state file records a successful scan of the same
revision, otherwise throttle and dispatch by mode, append the common metadata
and persist the state entry on success with a known revision.  The first
component is the returned ActionResult, or the message of a propagated
exception; the second lists the external interactions in order. -/
def executeSonar (cfg : SonarConfig) (rc : RepoCtxM) (w : SonarWorld) :
    Except String ActionResultModel × List SonarEffect :=
  match resolveSonarUrl cfg w with
  | none =>
    (Except.ok { action_name := "RunSonarScannerAction", success := false,
                 message := "Missing Sonar URL (SONARQUBE_URL or SONAR_HOST_URL)",
                 metadata := [] }, [])
  | some sonarUrl =>
    match resolveSonarToken cfg w with
    | none =>
      (Except.ok { action_name := "RunSonarScannerAction", success := false,
                   message := "Missing Sonar token (SONARQUBE_TOKEN or SONAR_TOKEN)",
                   metadata := [] }, [])
    | some _ =>
      let pk := project_key rc.workspace_id rc.repo_slug
      let branchName := (resolve_git_branch w).1
      let bae := branchAnalysisEnabled w
      let revision := (resolve_git_revision w).1
      let baseEffs := (resolve_git_branch w).2 ++ (resolve_git_revision w).2
      if skipGateTaken cfg rc w sonarUrl then
        (Except.ok { action_name := "RunSonarScannerAction", success := true,
                     message := "Sonar scan skipped (repository unchanged)",
                     metadata := [("repo_slug", MetaVal.s rc.repo_slug),
                                  ("project_key", MetaVal.s pk),
                                  ("branch_name", optStr branchName),
                                  ("branch_analysis_enabled", MetaVal.b bae),
                                  ("revision", optStr revision),
                                  ("reason", MetaVal.s "unchanged"),
                                  ("wait_mode", MetaVal.s cfg.wait_mode)] },
         baseEffs)
      else
        let throttleEffs := if w.throttleSleeps then [SonarEffect.sleep] else []
        let dispatch := sonarDispatch cfg rc w sonarUrl
        match dispatch.1 with
        | Except.error m => (Except.error m, baseEffs ++ throttleEffs ++ dispatch.2)
        | Except.ok (success, message, finalStatus, md) =>
          let md2 := md ++ [("project_key", MetaVal.s pk),
                            ("revision", optStr revision),
                            ("skip_unchanged", MetaVal.b cfg.skip_unchanged),
                            ("force_scan", MetaVal.b cfg.force_scan),
                            ("final_status", MetaVal.s finalStatus)]
          let saveEffs := if success && revision.isSome then [SonarEffect.stateWrite] else []
          (Except.ok { action_name := "RunSonarScannerAction", success := success,
                       message := message, metadata := md2 },
           baseEffs ++ throttleEffs ++ dispatch.2 ++ saveEffs)

/-- Success flag of a returned (non-raised) action result. -/
def resultSuccess : Except String ActionResultModel → Option Bool
  | Except.ok r => some r.success
  | Except.error _ => none

/-- Metadata lookup on a returned (non-raised) action result. -/
def resultMeta (k : String) : Except String ActionResultModel → Option MetaVal
  | Except.ok r => dget r.metadata k
  | Except.error _ => none

/-! ## Concrete fixtures used by the closed theorems below -/

/-- Action configuration with the idempotence gate armed
(skip_unchanged true, force_scan false). -/
def sonarCfgC1 : SonarConfig :=
  { sonarUrl := some "https://s", sonarToken := some "tok"
    execution_mode := ExecutionMode.local, wait_mode := "sync"
    skip_unchanged := true, force_scan := false }

/-- Repository context for the gate fixtures. -/
def sonarRcC1 : RepoCtxM := { workspace_id := "wks", repo_slug := "alpha" }

/-- World in which HEAD resolves to abc123 and the state file records a
successful scan of abc123 under the default-branch key. -/
def sonarWorldC1 : SonarWorld :=
  { env := []
    revParseAbbrevHead := some "main\n"
    symbolicRefOriginHead := none
    revParseHead := some "abc123\n"
    stateScans := some [("https://s|wks_alpha|default",
                         { revision := some "abc123", status := some "SUCCESS" })]
    throttleSleeps := false
    scannerExit := 0, scannerStdout := "", scannerStderr := ""
    scannerAnalysisUrl := none, scannerCeTaskId := none
    cePolls := fun _ => PollOutcome.err "unused", maxPolls := 0
    qualityGate := QgOutcome.notFound
    ciOutcome := Except.error "unused" }

/-- Local/sync action configuration with the gate disarmed. -/
def sonarCfgC4 : SonarConfig :=
  { sonarUrl := some "https://s", sonarToken := some "tok"
    execution_mode := ExecutionMode.local, wait_mode := "sync"
    skip_unchanged := false, force_scan := false }

/-- Repository context for the local/sync wait fixture. -/
def sonarRcC4 : RepoCtxM := { workspace_id := "wks", repo_slug := "beta" }

/-- World in which the scanner exits 0 with task id TASK1 and the CE task
reports PENDING twice and then SUCCESS. -/
def sonarWorldC4 : SonarWorld :=
  { env := []
    revParseAbbrevHead := some "main\n"
    symbolicRefOriginHead := none
    revParseHead := some "def456\n"
    stateScans := none
    throttleSleeps := false
    scannerExit := 0
    scannerStdout := "More about the report processing at https://s/api/ce/task?id=TASK1"
    scannerStderr := ""
    scannerAnalysisUrl := some "https://s/dashboard?id=wks_beta"
    scannerCeTaskId := some "TASK1"
    cePolls := fun i =>
      if i < 2 then PollOutcome.ok { status := "PENDING", analysisId := none,
                                     componentKey := none, errorMessage := none }
      else PollOutcome.ok { status := "SUCCESS", analysisId := some "AN1",
                            componentKey := none, errorMessage := none }
    maxPolls := 5
    qualityGate := QgOutcome.notFound
    ciOutcome := Except.error "unused" }

/-- A repository whose sync raises (clone fails). -/
def scanRepoFail : ScanRepo :=
  { repo := { name := "Alpha", slug := "alpha", clone_url := "git@x:o/alpha.git" }
    outcome := { alreadyExists := false, syncError := some "clone failed", actionResults := [] } }

/-- A repository as seen by a dry run. -/
def scanRepoDry : ScanRepo :=
  { repo := { name := "Alpha", slug := "alpha", clone_url := "git@x:o/alpha.git" }
    outcome := { alreadyExists := false, syncError := none, actionResults := [] } }

/-- A Bitbucket server answering every listing URL with an empty last page. -/
def bbServerEmpty : String → BbPage := fun _ => { repos := [], next := none }

/-- The effects a dry run is allowed to produce: the provider repository
listing (performed in every run at line 85) and read-only path-existence
queries; no directory creation, no git sync, no action execution. -/
def ScanEffect.dryRunAllowed : ScanEffect → Bool
  | ScanEffect.providerList => true
  | ScanEffect.pathExists _ => true
  | _ => false

/-! # Theorems -/

/-- Lookup distributes over dictionary concatenation with the right side
(the updating bindings) winning. -/
theorem dget_append (a b : Dict) (k : String) :
    dget (a ++ b) k = match dget b k with
      | some v => some v
      | none => dget a k := by
  unfold dget
  rw [List.reverse_append, List.find?_append]
  cases b.reverse.find? (fun p => p.1 == k) <;> simp

/-- C2 (code_bug evidence): the concrete filesystem adapter does not override
the abstract method path_exists of the FileSystem port, so Python cannot
instantiate it (TypeError at LocalFileSystemAdapter()), even though the port
declares path_exists and the workspace scanner calls it for every repository. -/
theorem local_filesystem_missing_path_exists :
    abcInstantiable FileSystemPort.abstractMethods LocalFileSystemAdapter.definedMethods = false ∧
    LocalFileSystemAdapter.definedMethods.contains "path_exists" = false ∧
    FileSystemPort.abstractMethods.contains "path_exists" = true := by
  decide

/-- C3 (counterexample): a completed run whose summary contains one failed
repository still exits with code 0, not 1 as the claim states. -/
theorem cli_exit_code_failed_run_cex :
    (scannerExecute "wks" "/base" [] [scanRepoFail] false false).1.failed_repositories = 1 ∧
    mainExitCode (CliOutcome.completed
      (scannerExecute "wks" "/base" [] [scanRepoFail] false false).1) = 0 := by
  constructor
  · rfl
  · rfl

/-- C3 (amended): the CLI exits 0 on every completed run, regardless of how
many repositories failed, and 2 on usage/validation errors (and on runtime
errors, which main also routes through parser.error). -/
theorem cli_exit_codes (summary : ScanExecutionSummary) :
    mainExitCode (CliOutcome.completed summary) = 0 ∧
    mainExitCode CliOutcome.usageError = 2 ∧
    mainExitCode CliOutcome.runtimeError = 2 :=
  ⟨rfl, rfl, rfl⟩

/-- C6: for every run of GitWorkspaceScanner.execute, including runs cut
short by stop_on_error, the returned summary satisfies
successful_repositories + failed_repositories = number of per-repository
summaries it contains. -/
theorem scan_summary_counts (workspace baseDir : String) (plannedActions : List String)
    (repos : List ScanRepo) (dryRun stopOnError : Bool) :
    (scannerExecute workspace baseDir plannedActions repos dryRun stopOnError).1.successful_repositories +
      (scannerExecute workspace baseDir plannedActions repos dryRun stopOnError).1.failed_repositories =
      (scannerExecute workspace baseDir plannedActions repos dryRun stopOnError).1.repositories.length := by
  rcases h : scannerLoop baseDir plannedActions dryRun stopOnError repos with ⟨ss, effs⟩
  simp only [scannerExecute, h]
  have hle := List.countP_le_length (fun s => !s.success) (l := ss)
  omega

/-- Every character of the Latin-1 alnum test beyond ASCII is at least 0xAA,
so on ASCII characters the Python isalnum model coincides with ASCII
alphanumeric. -/
theorem pyIsAlnum_ascii (c : Char) (h : c.toNat < 128) : pyIsAlnum c = c.isAlphanum := by
  unfold pyIsAlnum
  cases hb : c.isAlphanum <;> simp
  omega

/-- C5 (counterexample): the sanitization keeps the Unicode letter U+00E9
(Python str.isalnum is Unicode-aware), so the project key built from
workspace w and a slug containing it is not confined to the ASCII class
[A-Za-z0-9_\-.:]. -/
theorem project_key_unicode_cex :
    project_key "w" (String.mk [Char.ofNat 0xE9]) = String.mk ['w', '_', Char.ofNat 0xE9] ∧
    (project_key "w" (String.mk [Char.ofNat 0xE9])).data.all isAsciiKeyChar = false := by
  decide

/-- C5 (amended): for ASCII inputs the project-key sanitization produces only
characters of [A-Za-z0-9_\-.:], replacing every character outside that class
with an underscore. -/
theorem project_key_ascii_sanitized (workspace slug : String)
    (h : ∀ c ∈ (workspace ++ "_" ++ slug).data, c.toNat < 128) :
    (project_key workspace slug).data =
      (workspace ++ "_" ++ slug).data.map (fun c => if isAsciiKeyChar c then c else '_') ∧
    (project_key workspace slug).data.all isAsciiKeyChar = true := by
  have hmap : (project_key workspace slug).data =
      (workspace ++ "_" ++ slug).data.map (fun c => if isAsciiKeyChar c then c else '_') := by
    show ((workspace ++ "_" ++ slug).data.map _) = _
    refine List.map_congr_left (fun c hc => ?_)
    rw [pyIsAlnum_ascii c (h c hc)]
    rfl
  refine ⟨hmap, ?_⟩
  rw [hmap, List.all_eq_true]
  intro x hx
  obtain ⟨c, _, hcx⟩ := List.mem_map.mp hx
  by_cases hk : isAsciiKeyChar c = true
  · rw [← hcx, if_pos hk]; exact hk
  · rw [← hcx, if_neg hk]; rfl

/-- Witness for the amended C5 theorem at a concrete ASCII input. -/
theorem project_key_ascii_sanitized_witness :
    (project_key "wks" "alpha!x").data =
      ("wks" ++ "_" ++ "alpha!x").data.map (fun c => if isAsciiKeyChar c then c else '_') ∧
    (project_key "wks" "alpha!x").data.all isAsciiKeyChar = true :=
  project_key_ascii_sanitized "wks" "alpha!x" (by decide)

/-- Two string concatenations differ when their left parts differ at an index
both cover. -/
theorem ne_append_append {p q : String} (i : Nat)
    (hip : i < p.data.length) (hiq : i < q.data.length)
    (hne : p.data[i]? ≠ q.data[i]?) (u v : String) :
    p ++ u ≠ q ++ v := by
  intro h
  have hd : (p ++ u).data = (q ++ v).data := by rw [h]
  rw [String.data_append, String.data_append] at hd
  have hi : (p.data ++ u.data)[i]? = (q.data ++ v.data)[i]? := by rw [hd]
  rw [List.getElem?_append_left hip, List.getElem?_append_left hiq] at hi
  exact hne hi

/-- C10: the spawned sonar-scanner command contains a
-Dsonar.branch.name argument exactly when the branch name passed to
ShellSonarScannerRunner.run is truthy and different from main; in that case
the argument carries exactly that branch, and for branch main no such
argument is present at all.  (The hypothesis excludes the degenerate
configuration in which the scanner executable itself is named like the
branch property.) -/
theorem shell_scanner_branch_flag (exe sonarUrl token : String) (branchName : Option String)
    (hexe : ∀ v, exe ≠ "-Dsonar.branch.name=" ++ v) :
    ((∃ v, ("-Dsonar.branch.name=" ++ v) ∈ shellSonarScannerCommand exe sonarUrl token branchName) ↔
      (∃ b, branchName = some b ∧ b ≠ "" ∧ b ≠ "main")) ∧
    (∀ b, branchName = some b → b ≠ "" → b ≠ "main" →
      ("-Dsonar.branch.name=" ++ b) ∈ shellSonarScannerCommand exe sonarUrl token branchName) ∧
    (branchName = some "main" →
      ∀ v, ("-Dsonar.branch.name=" ++ v) ∉ shellSonarScannerCommand exe sonarUrl token branchName) := by
  have hhost : ∀ v, ("-Dsonar.branch.name=" ++ v) ≠ ("-Dsonar.host.url=" ++ sonarUrl) :=
    fun v => ne_append_append 8 (by decide) (by decide) (by decide) v sonarUrl
  have htk : ∀ v, ("-Dsonar.branch.name=" ++ v) ≠ ("-Dsonar.token=" ++ token) :=
    fun v => ne_append_append 8 (by decide) (by decide) (by decide) v token
  have hbase : ∀ v, ("-Dsonar.branch.name=" ++ v) ∉
      [exe, "-Dsonar.host.url=" ++ sonarUrl, "-Dsonar.token=" ++ token] := by
    intro v hv
    rcases List.mem_cons.mp hv with h | hv
    · exact hexe v h.symm
    rcases List.mem_cons.mp hv with h | hv
    · exact hhost v h
    rcases List.mem_cons.mp hv with h | hv
    · exact htk v h
    · exact absurd hv (List.not_mem_nil _)
  rcases branchName with _ | b
  · have hcmd : shellSonarScannerCommand exe sonarUrl token none =
        [exe, "-Dsonar.host.url=" ++ sonarUrl, "-Dsonar.token=" ++ token] := by
      show _ ++ ([] : List String) = _
      rw [List.append_nil]
    refine ⟨⟨?_, ?_⟩, ?_, ?_⟩
    · rintro ⟨v, hv⟩
      rw [hcmd] at hv
      exact absurd hv (hbase v)
    · rintro ⟨b, hb, h1, h2⟩
      exact Option.noConfusion hb
    · intro b hb
      exact Option.noConfusion hb
    · intro hb
      exact Option.noConfusion hb
  · have hcmd : shellSonarScannerCommand exe sonarUrl token (some b) =
        [exe, "-Dsonar.host.url=" ++ sonarUrl, "-Dsonar.token=" ++ token] ++
        (if b ≠ "" && b ≠ "main" then ["-Dsonar.branch.name=" ++ b] else []) := rfl
    by_cases hg : (decide (b ≠ "") && decide (b ≠ "main")) = true
    · have hgs := (Bool.and_eq_true _ _).mp hg
      have hb1 : b ≠ "" := of_decide_eq_true hgs.1
      have hb2 : b ≠ "main" := of_decide_eq_true hgs.2
      have hcmd2 : shellSonarScannerCommand exe sonarUrl token (some b) =
          [exe, "-Dsonar.host.url=" ++ sonarUrl, "-Dsonar.token=" ++ token] ++
          ["-Dsonar.branch.name=" ++ b] := by
        rw [hcmd, if_pos hg]
      refine ⟨⟨?_, ?_⟩, ?_, ?_⟩
      · rintro ⟨v, hv⟩
        exact ⟨b, rfl, hb1, hb2⟩
      · rintro ⟨b2, hb, h1, h2⟩
        refine ⟨b, ?_⟩
        rw [hcmd2]
        exact List.mem_append_right _ (List.mem_singleton.mpr rfl)
      · intro b2 hb h1 h2
        have hb2eq : b2 = b := (Option.some.inj hb).symm
        rw [hb2eq, hcmd2]
        exact List.mem_append_right _ (List.mem_singleton.mpr rfl)
      · intro hb
        have : b = "main" := Option.some.inj hb
        rw [this] at hb2
        exact absurd rfl hb2
    · have hcmd2 : shellSonarScannerCommand exe sonarUrl token (some b) =
          [exe, "-Dsonar.host.url=" ++ sonarUrl, "-Dsonar.token=" ++ token] := by
        rw [hcmd, if_neg hg, List.append_nil]
      refine ⟨⟨?_, ?_⟩, ?_, ?_⟩
      · rintro ⟨v, hv⟩
        rw [hcmd2] at hv
        exact absurd hv (hbase v)
      · rintro ⟨b2, hb, h1, h2⟩
        have hb2eq : b2 = b := (Option.some.inj hb).symm
        rw [hb2eq] at h1 h2
        exact absurd ((Bool.and_eq_true _ _).mpr ⟨decide_eq_true h1, decide_eq_true h2⟩) hg
      · intro b2 hb h1 h2
        have hb2eq : b2 = b := (Option.some.inj hb).symm
        rw [hb2eq] at h1 h2
        exact absurd ((Bool.and_eq_true _ _).mpr ⟨decide_eq_true h1, decide_eq_true h2⟩) hg
      · intro hb v
        rw [hcmd2]
        exact hbase v

/-- Witness for the C10 theorem with the default executable and branch dev:
the branch argument is present exactly as described. -/
theorem shell_scanner_branch_flag_witness :
    ((∃ v, ("-Dsonar.branch.name=" ++ v) ∈
        shellSonarScannerCommand "sonar-scanner" "https://s" "tok" (some "dev")) ↔
      (∃ b, (some "dev" : Option String) = some b ∧ b ≠ "" ∧ b ≠ "main")) ∧
    (∀ b, (some "dev" : Option String) = some b → b ≠ "" → b ≠ "main" →
      ("-Dsonar.branch.name=" ++ b) ∈
        shellSonarScannerCommand "sonar-scanner" "https://s" "tok" (some "dev")) ∧
    ((some "dev" : Option String) = some "main" →
      ∀ v, ("-Dsonar.branch.name=" ++ v) ∉
        shellSonarScannerCommand "sonar-scanner" "https://s" "tok" (some "dev")) :=
  shell_scanner_branch_flag "sonar-scanner" "https://s" "tok" (some "dev") (by
    intro v h
    have hlen := congrArg String.length h
    rw [String.length_append] at hlen
    have h1 : ("sonar-scanner" : String).length = 13 := rfl
    have h2 : ("-Dsonar.branch.name=" : String).length = 20 := rfl
    rw [h1, h2] at hlen
    omega)

/-- Every per-repository iteration of a dry run records an empty result list
with success, and only produces path-existence probes. -/
theorem scannerLoop_dry (baseDir : String) (pa : List String) (stopOnError : Bool) :
    ∀ repos : List ScanRepo,
      (∀ r ∈ (scannerLoop baseDir pa true stopOnError repos).1,
         r.action_results = [] ∧ r.success = true) ∧
      (scannerLoop baseDir pa true stopOnError repos).2.all ScanEffect.dryRunAllowed = true := by
  intro repos
  induction repos with
  | nil => simp [scannerLoop]
  | cons sr rest ih =>
    rcases h : scannerLoop baseDir pa true stopOnError rest with ⟨ss, effs⟩
    rw [h] at ih
    simp only [scannerLoop, h, if_true, List.mem_cons, List.all_append]
    constructor
    · rintro r (hr | hr)
      · rw [hr]; exact ⟨rfl, rfl⟩
      · exact ih.1 r hr
    · simp [ScanEffect.dryRunAllowed, ih.2]

/-- C7 (amended): a dry run records an empty action_results tuple and success
for every repository, creates no directory, issues no clone or pull, and
executes no action; its only external interactions are the provider
repository listing and the read-only path-existence queries. -/
theorem scanner_dry_run_frame (workspace baseDir : String) (pa : List String)
    (repos : List ScanRepo) (stopOnError : Bool) :
    (∀ r ∈ (scannerExecute workspace baseDir pa repos true stopOnError).1.repositories,
       r.action_results = [] ∧ r.success = true) ∧
    (scannerExecute workspace baseDir pa repos true stopOnError).2.all
      ScanEffect.dryRunAllowed = true := by
  rcases h : scannerLoop baseDir pa true stopOnError repos with ⟨ss, effs⟩
  have hd := scannerLoop_dry baseDir pa stopOnError repos
  rw [h] at hd
  simp only [scannerExecute, h, if_true]
  refine ⟨hd.1, ?_⟩
  simp [ScanEffect.dryRunAllowed, hd.2]

/-- C7 (counterexample): even a dry run performs the provider repository
listing, and in the only implemented provider adapter that listing issues an
HTTP GET to the Bitbucket repositories endpoint, so a dry run is not free of
HTTP calls. -/
theorem scanner_dry_run_http_cex :
    ScanEffect.providerList ∈ (scannerExecute "wks" "/base" [] [scanRepoDry] true false).2 ∧
    (bbListRepositories bbServerEmpty 1 (bbListUrl "https://api.bitbucket.org/2.0" "wks")).2 =
      [HttpEffect.get "https://api.bitbucket.org/2.0/repositories/wks"] :=
  ⟨by decide, rfl⟩

/-- Shifting the running index of the row-search loop shifts its result. -/
theorem find_row_index_aux_succ (ws slug : String) (l : List CsvRow) :
    ∀ n, find_row_index_aux ws slug l (n + 1) =
      (find_row_index_aux ws slug l n).map (fun i => i + 1) := by
  induction l with
  | nil => intro n; rfl
  | cons r rs ih =>
    intro n
    unfold find_row_index_aux
    by_cases h : rowMatches r ws slug = true
    · rw [if_pos h, if_pos h]; rfl
    · rw [if_neg h, if_neg h]; exact ih (n + 1)

/-- A matching head is found at index zero. -/
theorem find_row_index_cons_true {r : CsvRow} {rs : List CsvRow} {ws slug : String}
    (h : rowMatches r ws slug = true) :
    find_row_index (r :: rs) ws slug = some 0 := by
  unfold find_row_index find_row_index_aux
  rw [if_pos h]

/-- A non-matching head shifts the search to the tail. -/
theorem find_row_index_cons_false {r : CsvRow} {rs : List CsvRow} {ws slug : String}
    (h : rowMatches r ws slug = false) :
    find_row_index (r :: rs) ws slug = (find_row_index rs ws slug).map (fun i => i + 1) := by
  show find_row_index_aux ws slug (r :: rs) 0 = _
  unfold find_row_index_aux
  rw [if_neg (by rw [h]; exact Bool.false_ne_true)]
  exact find_row_index_aux_succ ws slug rs 0

/-- Replace-or-append commutes with a non-matching head. -/
theorem upsertRows_cons_false {r : CsvRow} {rs : List CsvRow} {ws slug : String} {t : CsvRow}
    (h : rowMatches r ws slug = false) :
    upsertRows (r :: rs) ws slug t = r :: upsertRows rs ws slug t := by
  unfold upsertRows
  rw [find_row_index_cons_false h]
  rcases hfi : find_row_index rs ws slug with _ | i
  · simp
  · simp [List.set]

/-- Replace-or-append of a matching row into a list holding at most one
matching row leaves exactly one matching row, namely the new one. -/
theorem upsert_key_spec (ws slug : String) (t : CsvRow)
    (ht : rowMatches t ws slug = true) :
    ∀ rows : List CsvRow, keyCount rows ws slug ≤ 1 →
      keyCount (upsertRows rows ws slug t) ws slug = 1 ∧
      ∀ r ∈ upsertRows rows ws slug t, rowMatches r ws slug = true → r = t := by
  intro rows
  induction rows with
  | nil =>
    intro _
    refine ⟨by simp [upsertRows, find_row_index, find_row_index_aux, keyCount, ht], ?_⟩
    intro r hr _
    have : r ∈ ([] : List CsvRow) ++ [t] := by
      simpa [upsertRows, find_row_index, find_row_index_aux] using hr
    simpa using this
  | cons r rs ih =>
    intro hle
    cases hm : rowMatches r ws slug with
    | true =>
      have hup : upsertRows (r :: rs) ws slug t = t :: rs := by
        unfold upsertRows
        rw [find_row_index_cons_true hm]
        rfl
      have hcount0 : keyCount rs ws slug = 0 := by
        have hc : keyCount (r :: rs) ws slug = keyCount rs ws slug + 1 := by
          simp [keyCount, List.countP_cons, hm]
        rw [keyCount] at hle hc
        omega
      constructor
      · rw [hup]
        simp [keyCount, List.countP_cons, ht, keyCount] at hcount0 ⊢
        simpa [keyCount] using hcount0
      · intro x hx hmx
        rw [hup] at hx
        rcases List.mem_cons.mp hx with h | h
        · exact h
        · exfalso
          have hnone := List.countP_eq_zero.mp hcount0 x h
          exact hnone hmx
    | false =>
      have hup : upsertRows (r :: rs) ws slug t = r :: upsertRows rs ws slug t :=
        upsertRows_cons_false hm
      have hle2 : keyCount rs ws slug ≤ 1 := by
        have hc : keyCount (r :: rs) ws slug = keyCount rs ws slug := by
          simp [keyCount, List.countP_cons, hm]
        omega
      obtain ⟨ihc, ihm⟩ := ih hle2
      constructor
      · rw [hup]
        simpa [keyCount, List.countP_cons, hm] using ihc
      · intro x hx hmx
        rw [hup] at hx
        rcases List.mem_cons.mp hx with h | h
        · exfalso
          rw [h] at hmx
          rw [hm] at hmx
          exact Bool.false_ne_true hmx
        · exact ihm x h hmx

/-- Appending a matching row guarantees the search succeeds. -/
theorem find_row_index_append_isSome (ws slug : String) (t : CsvRow)
    (ht : rowMatches t ws slug = true) :
    ∀ rows : List CsvRow, (find_row_index (rows ++ [t]) ws slug).isSome = true := by
  intro rows
  induction rows with
  | nil =>
    show (find_row_index [t] ws slug).isSome = true
    rw [find_row_index_cons_true ht]
    rfl
  | cons r rs ih =>
    cases hm : rowMatches r ws slug with
    | true =>
      rw [List.cons_append, find_row_index_cons_true hm]
      rfl
    | false =>
      rw [List.cons_append, find_row_index_cons_false hm]
      obtain ⟨i, hi⟩ := Option.isSome_iff_exists.mp ih
      rw [hi]
      rfl

/-- When the row is already present and regenerate is false, execute leaves
the file untouched and reports row_written false. -/
theorem csvExecute_skip (cfg : CsvConfig) (inp : CsvInput) (file : Option (List CsvRow)) (i : Nat)
    (hreg : cfg.regenerate = false)
    (hfi : find_row_index (readRows file) inp.workspace_id inp.repo_slug = some i) :
    csvExecute cfg inp file = (file,
      { action_name := "WriteLanguageReportCsvAction", success := true,
        message := "CSV row already exists, skipped",
        metadata := [("csv_path", MetaVal.s cfg.report_csv_path),
                     ("row_written", MetaVal.b false),
                     ("regenerate", MetaVal.b false)] }) := by
  simp only [csvExecute, hfi, hreg]
  rfl

/-- When the row is absent, execute appends it (whatever regenerate is). -/
theorem csvExecute_append (cfg : CsvConfig) (inp : CsvInput) (file : Option (List CsvRow))
    (hfi : find_row_index (readRows file) inp.workspace_id inp.repo_slug = none) :
    (csvExecute cfg inp file).1 = some (readRows file ++
      [{ workspace := inp.workspace_id, repo_name := inp.repo_name,
         repo_slug := inp.repo_slug, local_path := inp.local_path,
         extensions := serialize_extensions cfg.extensions_delimiter inp.detected_extensions }]) := by
  simp only [csvExecute, hfi, upsertRows]

/-- With regenerate true, execute replaces or appends the target row. -/
theorem csvExecute_file_regen (cfg : CsvConfig) (inp : CsvInput) (file : Option (List CsvRow))
    (hreg : cfg.regenerate = true) :
    (csvExecute cfg inp file).1 = some (upsertRows (readRows file)
      inp.workspace_id inp.repo_slug
      { workspace := inp.workspace_id, repo_name := inp.repo_name,
        repo_slug := inp.repo_slug, local_path := inp.local_path,
        extensions := serialize_extensions cfg.extensions_delimiter inp.detected_extensions }) := by
  rcases hfi : find_row_index (readRows file) inp.workspace_id inp.repo_slug with _ | i
  · simp only [csvExecute, hfi]
  · simp only [csvExecute, hfi, hreg, if_true]

/-- C8: with regenerate false the CSV action is idempotent: after a first
execution has ensured the row for (workspace, slug) is present, a second
execution with identical inputs returns success with row_written false and
leaves the file value untouched (no write occurs, so the file bytes are
unchanged). -/
theorem csv_idempotent_no_regenerate (cfg : CsvConfig) (inp : CsvInput)
    (file : Option (List CsvRow)) (hreg : cfg.regenerate = false) :
    (csvExecute cfg inp (csvExecute cfg inp file).1).1 = (csvExecute cfg inp file).1 ∧
    (csvExecute cfg inp (csvExecute cfg inp file).1).2.success = true ∧
    dget (csvExecute cfg inp (csvExecute cfg inp file).1).2.metadata "row_written" =
      some (MetaVal.b false) := by
  have htarget : rowMatches
      { workspace := inp.workspace_id, repo_name := inp.repo_name,
        repo_slug := inp.repo_slug, local_path := inp.local_path,
        extensions := serialize_extensions cfg.extensions_delimiter inp.detected_extensions }
      inp.workspace_id inp.repo_slug = true := by
    simp [rowMatches]
  have hsome : (find_row_index (readRows (csvExecute cfg inp file).1)
      inp.workspace_id inp.repo_slug).isSome = true := by
    rcases hfi : find_row_index (readRows file) inp.workspace_id inp.repo_slug with _ | i
    · rw [csvExecute_append cfg inp file hfi]
      exact find_row_index_append_isSome inp.workspace_id inp.repo_slug _ htarget (readRows file)
    · rw [csvExecute_skip cfg inp file i hreg hfi]
      rw [hfi]
      rfl
  obtain ⟨j, hj⟩ := Option.isSome_iff_exists.mp hsome
  rw [csvExecute_skip cfg inp (csvExecute cfg inp file).1 j hreg hj]
  exact ⟨rfl, rfl, rfl⟩

/-- Witness for the C8 theorem at a concrete input starting from a missing
file. -/
theorem csv_idempotent_no_regenerate_witness :
    (csvExecute ⟨"r.csv", false, ";"⟩ ⟨"wks", "Alpha", "alpha", "/base/alpha", [".py", ".ts"]⟩
        (csvExecute ⟨"r.csv", false, ";"⟩ ⟨"wks", "Alpha", "alpha", "/base/alpha", [".py", ".ts"]⟩ none).1).1 =
      (csvExecute ⟨"r.csv", false, ";"⟩ ⟨"wks", "Alpha", "alpha", "/base/alpha", [".py", ".ts"]⟩ none).1 ∧
    (csvExecute ⟨"r.csv", false, ";"⟩ ⟨"wks", "Alpha", "alpha", "/base/alpha", [".py", ".ts"]⟩
        (csvExecute ⟨"r.csv", false, ";"⟩ ⟨"wks", "Alpha", "alpha", "/base/alpha", [".py", ".ts"]⟩ none).1).2.success = true ∧
    dget (csvExecute ⟨"r.csv", false, ";"⟩ ⟨"wks", "Alpha", "alpha", "/base/alpha", [".py", ".ts"]⟩
        (csvExecute ⟨"r.csv", false, ";"⟩ ⟨"wks", "Alpha", "alpha", "/base/alpha", [".py", ".ts"]⟩ none).1).2.metadata
      "row_written" = some (MetaVal.b false) :=
  csv_idempotent_no_regenerate ⟨"r.csv", false, ";"⟩
    ⟨"wks", "Alpha", "alpha", "/base/alpha", [".py", ".ts"]⟩ none rfl

/-- C9: with regenerate true the CSV action upserts: when a (workspace, slug)
pair is processed by two executions over a file holding at most one row for
that pair, the resulting file contains exactly one row for the pair, and its
extensions field is the sorted, delimiter-joined extension set of the second
execution. -/
theorem csv_upsert_exactly_one (cfg : CsvConfig) (inp1 inp2 : CsvInput)
    (file : Option (List CsvRow))
    (hreg : cfg.regenerate = true)
    (hws : inp2.workspace_id = inp1.workspace_id)
    (hslug : inp2.repo_slug = inp1.repo_slug)
    (hcount : keyCount (readRows file) inp1.workspace_id inp1.repo_slug ≤ 1) :
    keyCount (readRows (csvExecute cfg inp2 (csvExecute cfg inp1 file).1).1)
      inp1.workspace_id inp1.repo_slug = 1 ∧
    ∀ r ∈ readRows (csvExecute cfg inp2 (csvExecute cfg inp1 file).1).1,
      rowMatches r inp1.workspace_id inp1.repo_slug = true →
      r.extensions = serialize_extensions cfg.extensions_delimiter inp2.detected_extensions := by
  have ht1 : rowMatches
      { workspace := inp1.workspace_id, repo_name := inp1.repo_name,
        repo_slug := inp1.repo_slug, local_path := inp1.local_path,
        extensions := serialize_extensions cfg.extensions_delimiter inp1.detected_extensions }
      inp1.workspace_id inp1.repo_slug = true := by
    simp [rowMatches]
  have ht2 : rowMatches
      { workspace := inp1.workspace_id, repo_name := inp2.repo_name,
        repo_slug := inp1.repo_slug, local_path := inp2.local_path,
        extensions := serialize_extensions cfg.extensions_delimiter inp2.detected_extensions }
      inp1.workspace_id inp1.repo_slug = true := by
    simp [rowMatches]
  have h1 := csvExecute_file_regen cfg inp1 file hreg
  have h2 := csvExecute_file_regen cfg inp2 (csvExecute cfg inp1 file).1 hreg
  rw [h1] at h2
  rw [hws, hslug] at h2
  obtain ⟨hc1, _⟩ := upsert_key_spec inp1.workspace_id inp1.repo_slug _ ht1 (readRows file) hcount
  rw [h1, h2]
  simp only [readRows]
  obtain ⟨hc2, hm2⟩ := upsert_key_spec inp1.workspace_id inp1.repo_slug _ ht2
    (upsertRows (readRows file) inp1.workspace_id inp1.repo_slug
      { workspace := inp1.workspace_id, repo_name := inp1.repo_name,
        repo_slug := inp1.repo_slug, local_path := inp1.local_path,
        extensions := serialize_extensions cfg.extensions_delimiter inp1.detected_extensions })
    (Nat.le_of_eq hc1)
  refine ⟨hc2, ?_⟩
  intro r hr hmr
  rw [hm2 r hr hmr]

/-- Witness for the C9 theorem: two runs for the same pair with different
extensions starting from a missing file. -/
theorem csv_upsert_exactly_one_witness :
    keyCount (readRows (csvExecute ⟨"r.csv", true, ";"⟩ ⟨"wks", "Alpha", "alpha", "/b/alpha", [".go"]⟩
        (csvExecute ⟨"r.csv", true, ";"⟩ ⟨"wks", "Alpha", "alpha", "/b/alpha", [".py"]⟩ none).1).1)
      "wks" "alpha" = 1 ∧
    ∀ r ∈ readRows (csvExecute ⟨"r.csv", true, ";"⟩ ⟨"wks", "Alpha", "alpha", "/b/alpha", [".go"]⟩
        (csvExecute ⟨"r.csv", true, ";"⟩ ⟨"wks", "Alpha", "alpha", "/b/alpha", [".py"]⟩ none).1).1,
      rowMatches r "wks" "alpha" = true →
      r.extensions = serialize_extensions ";" [".go"] :=
  csv_upsert_exactly_one ⟨"r.csv", true, ";"⟩
    ⟨"wks", "Alpha", "alpha", "/b/alpha", [".py"]⟩
    ⟨"wks", "Alpha", "alpha", "/b/alpha", [".go"]⟩ none rfl rfl rfl (by decide)

/-- Revision resolution spawns exactly the git rev-parse HEAD subprocess. -/
theorem resolve_git_revision_effects (w : SonarWorld) :
    (resolve_git_revision w).2 = [SonarEffect.subprocessGit "git rev-parse HEAD"] := rfl

/-- Branch resolution spawns only git subprocesses. -/
theorem resolve_git_branch_effects (w : SonarWorld) :
    (resolve_git_branch w).2.all SonarEffect.isGitSubprocess = true := by
  unfold resolve_git_branch
  rcases hab : w.revParseAbbrevHead with _ | out
  · rfl
  · simp only []
    by_cases hb : (pyStrip out ≠ "" && pyStrip out ≠ "HEAD") = true
    · rw [if_pos hb]
      rfl
    · rw [if_neg hb]
      rfl

/-- The non-gate successful path of execute: with URL and token resolved and
the idempotence gate not taken, a dispatch returning a result yields that
result wrapped with the common metadata tail. -/
theorem executeSonar_dispatch_ok (cfg : SonarConfig) (rc : RepoCtxM) (w : SonarWorld)
    (u t : String) (success : Bool) (message finalStatus : String) (md : Dict)
    (hurl : resolveSonarUrl cfg w = some u)
    (ht : resolveSonarToken cfg w = some t)
    (hgate : skipGateTaken cfg rc w u = false)
    (hdisp : (sonarDispatch cfg rc w u).1 = Except.ok (success, message, finalStatus, md)) :
    (executeSonar cfg rc w).1 = Except.ok
      { action_name := "RunSonarScannerAction", success := success, message := message,
        metadata := md ++
          [("project_key", MetaVal.s (project_key rc.workspace_id rc.repo_slug)),
           ("revision", optStr (resolve_git_revision w).1),
           ("skip_unchanged", MetaVal.b cfg.skip_unchanged),
           ("force_scan", MetaVal.b cfg.force_scan),
           ("final_status", MetaVal.s finalStatus)] } := by
  unfold executeSonar
  simp only [hurl, ht, hgate, hdisp, Bool.false_eq_true, if_false]

/-- The final_status binding of the common metadata tail is what lookup
returns. -/
theorem dget_final_status (md : Dict) (pk : String) (rev : Option String)
    (su fo : Bool) (fs : String) :
    dget (md ++ [("project_key", MetaVal.s pk), ("revision", optStr rev),
                 ("skip_unchanged", MetaVal.b su), ("force_scan", MetaVal.b fo),
                 ("final_status", MetaVal.s fs)]) "final_status" = some (MetaVal.s fs) := by
  rw [dget_append]
  rfl

/-- C1 (counterexample): at a context satisfying all of the claim's
conditions the action does return success with reason unchanged, but its
trace contains subprocess spawns (the git branch and revision resolution run
before the idempotence gate), so the claim that no subprocess call is
performed fails. -/
theorem sonar_unchanged_subprocess_cex :
    sonarCfgC1.skip_unchanged = true ∧ sonarCfgC1.force_scan = false ∧
    (resolve_git_revision sonarWorldC1).1 = some "abc123" ∧
    load_state_entry sonarWorldC1 "https://s" (project_key "wks" "alpha")
      (scannerBranchName sonarWorldC1) =
      some { revision := some "abc123", status := some "SUCCESS" } ∧
    resultSuccess (executeSonar sonarCfgC1 sonarRcC1 sonarWorldC1).1 = some true ∧
    resultMeta "reason" (executeSonar sonarCfgC1 sonarRcC1 sonarWorldC1).1 =
      some (MetaVal.s "unchanged") ∧
    (executeSonar sonarCfgC1 sonarRcC1 sonarWorldC1).2.any SonarEffect.isSubprocess = true := by
  decide

/-- C1 (amended): under the claim's conditions (skip_unchanged, not forced,
revision resolved, matching SUCCESS state entry, URL and token available) the
action returns success with metadata reason unchanged, and its only external
interactions are the git branch/revision resolution subprocesses: no network
call, no scanner spawn, no sleep and no state write occur. -/
theorem sonar_unchanged_skip (cfg : SonarConfig) (rc : RepoCtxM) (w : SonarWorld)
    (u r : String) (e : StateEntry)
    (hskip : cfg.skip_unchanged = true) (hforce : cfg.force_scan = false)
    (hurl : resolveSonarUrl cfg w = some u)
    (htok : (resolveSonarToken cfg w).isSome = true)
    (hrev : (resolve_git_revision w).1 = some r)
    (hentry : load_state_entry w u (project_key rc.workspace_id rc.repo_slug)
      (scannerBranchName w) = some e)
    (herev : e.revision = some r) (hestat : e.status = some "SUCCESS") :
    resultSuccess (executeSonar cfg rc w).1 = some true ∧
    resultMeta "reason" (executeSonar cfg rc w).1 = some (MetaVal.s "unchanged") ∧
    (executeSonar cfg rc w).2.all SonarEffect.isGitSubprocess = true := by
  obtain ⟨t, ht⟩ := Option.isSome_iff_exists.mp htok
  have hgate : skipGateTaken cfg rc w u = true := by
    unfold skipGateTaken
    rw [hskip, hforce, hrev, hentry]
    simp [herev, hestat]
  refine ⟨?_, ?_, ?_⟩
  · unfold executeSonar
    simp only [hurl, ht, hgate, if_true]
    rfl
  · unfold executeSonar
    simp only [hurl, ht, hgate, if_true]
    rfl
  · unfold executeSonar
    simp only [hurl, ht, hgate, if_true]
    rw [List.all_append]
    rw [resolve_git_branch_effects, resolve_git_revision_effects]
    rfl

/-- Witness for the amended C1 theorem at the concrete fixture. -/
theorem sonar_unchanged_skip_witness :
    resultSuccess (executeSonar sonarCfgC1 sonarRcC1 sonarWorldC1).1 = some true ∧
    resultMeta "reason" (executeSonar sonarCfgC1 sonarRcC1 sonarWorldC1).1 =
      some (MetaVal.s "unchanged") ∧
    (executeSonar sonarCfgC1 sonarRcC1 sonarWorldC1).2.all SonarEffect.isGitSubprocess = true :=
  sonar_unchanged_skip sonarCfgC1 sonarRcC1 sonarWorldC1 "https://s" "abc123"
    { revision := some "abc123", status := some "SUCCESS" }
    rfl rfl (by decide) (by decide) (by decide) (by decide) rfl rfl

/-- The ce_task_status the polling loop reports is the first terminal status
the poll stream yields within the deadline, else TIMEOUT: transient errors
and non-terminal statuses are skipped. -/
theorem waitAux_status (sonarUrl tid : String) (polls : Nat → PollOutcome) :
    ∀ fuel i lastErr,
      dget (waitForCeTaskAux sonarUrl tid polls i fuel lastErr).1 "ce_task_status" =
        some (MetaVal.s ((firstTerminalStatus polls i fuel).getD "TIMEOUT")) := by
  intro fuel
  induction fuel with
  | zero => intro i lastErr; rfl
  | succ n ih =>
    intro i lastErr
    unfold waitForCeTaskAux firstTerminalStatus
    cases hp : polls i with
    | err m => exact ih (i + 1) (some m)
    | ok task =>
      dsimp only
      by_cases hterm : isTerminalStatus task.status = true
      · rw [if_pos hterm, if_pos hterm]
        rfl
      · rw [if_neg hterm, if_neg hterm]
        exact ih (i + 1) lastErr

/-- The first-terminal scan only returns terminal statuses. -/
theorem firstTerminal_terminal (polls : Nat → PollOutcome) :
    ∀ fuel i s, firstTerminalStatus polls i fuel = some s → isTerminalStatus s = true := by
  intro fuel
  induction fuel with
  | zero =>
    intro i s h
    exact absurd h (by simp [firstTerminalStatus])
  | succ n ih =>
    intro i s h
    unfold firstTerminalStatus at h
    cases hp : polls i with
    | err m =>
      rw [hp] at h
      exact ih (i + 1) s h
    | ok task =>
      rw [hp] at h
      dsimp only at h
      by_cases hterm : isTerminalStatus task.status = true
      · rw [if_pos hterm] at h
        rw [← Option.some.inj h]
        exact hterm
      · rw [if_neg hterm] at h
        exact ih (i + 1) s h

/-- A poll stream that only yields transient errors within the deadline has
no terminal status. -/
theorem firstTerminal_none_of_err (polls : Nat → PollOutcome) :
    ∀ fuel i, (∀ j, j < fuel → ∃ m, polls (i + j) = PollOutcome.err m) →
      firstTerminalStatus polls i fuel = none := by
  intro fuel
  induction fuel with
  | zero => intro i _; rfl
  | succ n ih =>
    intro i h
    obtain ⟨m, hm⟩ := h 0 (Nat.succ_pos n)
    rw [Nat.add_zero] at hm
    unfold firstTerminalStatus
    rw [hm]
    exact ih (i + 1) (fun j hj => by
      obtain ⟨m2, hm2⟩ := h (j + 1) (Nat.succ_lt_succ hj)
      exact ⟨m2, by rw [show i + 1 + j = i + (j + 1) from by omega]; exact hm2⟩)

/-- The local sync branch of execute: a zero scanner exit with an extracted
task id waits for the CE task and maps the reported status. -/
theorem executeLocalScan_sync (cfg : SonarConfig) (rc : RepoCtxM) (w : SonarWorld)
    (u tid : String) (bn : Option String) (bae : Bool) (st : String)
    (hsync : cfg.wait_mode = "sync") (hexit : w.scannerExit = 0)
    (htask : w.scannerCeTaskId = some tid)
    (hst : dget (wait_for_ce_task u tid w).1 "ce_task_status" = some (MetaVal.s st))
    (hne : st ≠ "") :
    ∃ md : Dict,
      (executeLocalScan cfg rc w u bn bae).1 =
        (if st = "SUCCESS" then
           Except.ok (true, "Sonar scan completed and processed", "SUCCESS", md)
         else if st = "TIMEOUT" then
           Except.ok (false, "Sonar scan submitted but CE processing wait timed out", "TIMEOUT", md)
         else
           Except.ok (false, "Sonar scan submitted but CE processing ended with status " ++ st,
             st, md)) := by
  refine ⟨[("repo_slug", MetaVal.s rc.repo_slug),
           ("execution_mode", MetaVal.s "local"),
           ("exit_code", MetaVal.i w.scannerExit),
           ("analysis_url", optStr w.scannerAnalysisUrl),
           ("ce_task_id", optStr w.scannerCeTaskId),
           ("branch_name", optStr bn),
           ("branch_analysis_enabled", MetaVal.b bae),
           ("wait_mode", MetaVal.s cfg.wait_mode),
           ("stdout", MetaVal.s w.scannerStdout),
           ("stderr", MetaVal.s w.scannerStderr)] ++ (wait_for_ce_task u tid w).1, ?_⟩
  unfold executeLocalScan
  rw [hexit, hsync, htask]
  simp only [hst, beq_self_eq_true, Bool.and_self, if_true, hne, ite_false]
  by_cases h1 : st = "SUCCESS"
  · rw [if_pos h1, if_pos h1]
  · rw [if_neg h1, if_neg h1]
    by_cases h2 : st = "TIMEOUT"
    · rw [if_pos h2, if_pos h2]
    · rw [if_neg h2, if_neg h2]

/-- C4: in local mode with wait_mode sync, a zero scanner exit and an
extracted CE task id (URL and token resolved, idempotence gate not taken),
the action's outcome is classified by the first terminal status the poll
stream yields within the deadline: SUCCESS gives overall success with
final_status SUCCESS; any other terminal status gives failure with
final_status equal to that status; no terminal status within the deadline
gives failure with final_status TIMEOUT; and in particular transient poll
errors never decide the outcome: a stream of only errors ends in TIMEOUT,
not in an abort. -/
theorem sonar_local_sync_wait (cfg : SonarConfig) (rc : RepoCtxM) (w : SonarWorld)
    (u tid : String)
    (hmode : cfg.execution_mode = ExecutionMode.local)
    (hsync : cfg.wait_mode = "sync")
    (hurl : resolveSonarUrl cfg w = some u)
    (htok : (resolveSonarToken cfg w).isSome = true)
    (hgate : skipGateTaken cfg rc w u = false)
    (hexit : w.scannerExit = 0)
    (htask : w.scannerCeTaskId = some tid) :
    (firstTerminalStatus w.cePolls 0 w.maxPolls = some "SUCCESS" →
       resultSuccess (executeSonar cfg rc w).1 = some true ∧
       resultMeta "final_status" (executeSonar cfg rc w).1 = some (MetaVal.s "SUCCESS")) ∧
    (∀ s, firstTerminalStatus w.cePolls 0 w.maxPolls = some s → s ≠ "SUCCESS" →
       resultSuccess (executeSonar cfg rc w).1 = some false ∧
       resultMeta "final_status" (executeSonar cfg rc w).1 = some (MetaVal.s s)) ∧
    (firstTerminalStatus w.cePolls 0 w.maxPolls = none →
       resultSuccess (executeSonar cfg rc w).1 = some false ∧
       resultMeta "final_status" (executeSonar cfg rc w).1 = some (MetaVal.s "TIMEOUT")) ∧
    ((∀ j, j < w.maxPolls → ∃ m, w.cePolls j = PollOutcome.err m) →
       resultSuccess (executeSonar cfg rc w).1 = some false ∧
       resultMeta "final_status" (executeSonar cfg rc w).1 = some (MetaVal.s "TIMEOUT")) := by
  obtain ⟨t, ht⟩ := Option.isSome_iff_exists.mp htok
  have hwait : dget (wait_for_ce_task u tid w).1 "ce_task_status" =
      some (MetaVal.s ((firstTerminalStatus w.cePolls 0 w.maxPolls).getD "TIMEOUT")) :=
    waitAux_status u tid w.cePolls w.maxPolls 0 none
  have key : ∀ st : String, st ≠ "" →
      dget (wait_for_ce_task u tid w).1 "ce_task_status" = some (MetaVal.s st) →
      resultSuccess (executeSonar cfg rc w).1 = some (if st = "SUCCESS" then true else false) ∧
      resultMeta "final_status" (executeSonar cfg rc w).1 = some (MetaVal.s st) := by
    intro st hne hst
    obtain ⟨md, hlocal⟩ := executeLocalScan_sync cfg rc w u tid (resolve_git_branch w).1
      (branchAnalysisEnabled w) st hsync hexit htask hst hne
    by_cases h1 : st = "SUCCESS"
    · rw [if_pos h1] at hlocal
      have hdisp : (sonarDispatch cfg rc w u).1 =
          Except.ok (true, "Sonar scan completed and processed", "SUCCESS", md) := by
        unfold sonarDispatch
        rw [hmode]
        exact hlocal
      have hfull := executeSonar_dispatch_ok cfg rc w u t true _ "SUCCESS" md hurl ht hgate hdisp
      rw [if_pos h1, h1]
      constructor
      · rw [hfull]
        rfl
      · rw [hfull]
        exact dget_final_status md _ _ _ _ _
    · rw [if_neg h1] at hlocal
      by_cases h2 : st = "TIMEOUT"
      · rw [if_pos h2] at hlocal
        have hdisp : (sonarDispatch cfg rc w u).1 =
            Except.ok (false, "Sonar scan submitted but CE processing wait timed out",
              "TIMEOUT", md) := by
          unfold sonarDispatch
          rw [hmode]
          exact hlocal
        have hfull := executeSonar_dispatch_ok cfg rc w u t false _ "TIMEOUT" md hurl ht hgate hdisp
        rw [if_neg h1, h2]
        constructor
        · rw [hfull]
          rfl
        · rw [hfull]
          exact dget_final_status md _ _ _ _ _
      · rw [if_neg h2] at hlocal
        have hdisp : (sonarDispatch cfg rc w u).1 =
            Except.ok (false, "Sonar scan submitted but CE processing ended with status " ++ st,
              st, md) := by
          unfold sonarDispatch
          rw [hmode]
          exact hlocal
        have hfull := executeSonar_dispatch_ok cfg rc w u t false _ st md hurl ht hgate hdisp
        rw [if_neg h1]
        constructor
        · rw [hfull]
          rfl
        · rw [hfull]
          exact dget_final_status md _ _ _ _ _
  have hTimeoutCase : firstTerminalStatus w.cePolls 0 w.maxPolls = none →
      resultSuccess (executeSonar cfg rc w).1 = some false ∧
      resultMeta "final_status" (executeSonar cfg rc w).1 = some (MetaVal.s "TIMEOUT") := by
    intro hft
    rw [hft] at hwait
    have h := key "TIMEOUT" (by decide) hwait
    rw [if_neg (by decide)] at h
    exact h
  refine ⟨?_, ?_, hTimeoutCase, ?_⟩
  · intro hft
    rw [hft] at hwait
    have h := key "SUCCESS" (by decide) hwait
    rw [if_pos rfl] at h
    exact h
  · intro s hft hneS
    have hterm := firstTerminal_terminal w.cePolls w.maxPolls 0 s hft
    have hneE : s ≠ "" := by
      intro he
      rw [he] at hterm
      exact absurd hterm (by decide)
    rw [hft] at hwait
    have h := key s hneE hwait
    rw [if_neg hneS] at h
    exact h
  · intro herr
    exact hTimeoutCase (firstTerminal_none_of_err w.cePolls w.maxPolls 0
      (fun j hj => by
        obtain ⟨m, hm⟩ := herr j hj
        exact ⟨m, by rw [Nat.zero_add]; exact hm⟩))

/-- Witness for the C4 theorem at the concrete local/sync fixture, whose CE
task reports PENDING twice and then SUCCESS within a five-poll deadline. -/
theorem sonar_local_sync_wait_witness :
    (firstTerminalStatus sonarWorldC4.cePolls 0 sonarWorldC4.maxPolls = some "SUCCESS" →
       resultSuccess (executeSonar sonarCfgC4 sonarRcC4 sonarWorldC4).1 = some true ∧
       resultMeta "final_status" (executeSonar sonarCfgC4 sonarRcC4 sonarWorldC4).1 =
         some (MetaVal.s "SUCCESS")) ∧
    (∀ s, firstTerminalStatus sonarWorldC4.cePolls 0 sonarWorldC4.maxPolls = some s →
       s ≠ "SUCCESS" →
       resultSuccess (executeSonar sonarCfgC4 sonarRcC4 sonarWorldC4).1 = some false ∧
       resultMeta "final_status" (executeSonar sonarCfgC4 sonarRcC4 sonarWorldC4).1 =
         some (MetaVal.s s)) ∧
    (firstTerminalStatus sonarWorldC4.cePolls 0 sonarWorldC4.maxPolls = none →
       resultSuccess (executeSonar sonarCfgC4 sonarRcC4 sonarWorldC4).1 = some false ∧
       resultMeta "final_status" (executeSonar sonarCfgC4 sonarRcC4 sonarWorldC4).1 =
         some (MetaVal.s "TIMEOUT")) ∧
    ((∀ j, j < sonarWorldC4.maxPolls → ∃ m, sonarWorldC4.cePolls j = PollOutcome.err m) →
       resultSuccess (executeSonar sonarCfgC4 sonarRcC4 sonarWorldC4).1 = some false ∧
       resultMeta "final_status" (executeSonar sonarCfgC4 sonarRcC4 sonarWorldC4).1 =
         some (MetaVal.s "TIMEOUT")) :=
  sonar_local_sync_wait sonarCfgC4 sonarRcC4 sonarWorldC4 "https://s" "TASK1"
    rfl rfl (by decide) (by decide) (by decide) rfl rfl

end Gitoteko
